import Mathlib

/-!
Verification of the Ruquest HTTP client (src/src/main.rs): data model,
JSON persistence of request groups, the request executor, the GUI state
transitions for dialogs and request editing, and the single-outstanding-
request discipline of the async bridge.

Shallow embedding conventions:
  * `serde_json::Value` is modelled by the inductive `Json` (numbers as
    `Int`, which suffices: the persisted schema contains no numbers).
  * `reqwest::header::HeaderMap` is modelled by an association list with
    the insert-replaces semantics of `HeaderMap::insert`.
  * `std::time::Duration` is modelled by a `Nat` (nanoseconds).
  * The file `saved_groups.json` on disk is modelled by `FileState`.
  * The network and the text-level JSON parser are external collaborators
    and enter as explicit function parameters of the executor.
-/

/-- Model of `serde_json::Value`. -/
inductive Json where
  | null : Json
  | bool (b : Bool) : Json
  | num (n : Int) : Json
  | str (s : String) : Json
  | arr (xs : List Json) : Json
  | obj (fields : List (String × Json)) : Json

/-- Model of struct `ApiResponse` in main.rs (lines 40-46): status code,
response headers, body text, elapsed duration (nanoseconds). -/
structure ApiResponse where
  status : Nat
  headers : List (String × String)
  body : String
  time_taken : Nat
deriving DecidableEq, Repr

/-- Model of struct `ApiRequest` in main.rs (lines 29-38).  The
`response` field carries `#[serde(skip)]` in the source: it is not
serialized and deserialization fills it with `Default::default()`,
i.e. `none`. -/
structure ApiRequest where
  name : String
  url : String
  method : String
  headers : List (String × String)
  body : String
  response : Option ApiResponse
deriving DecidableEq, Repr

/-- Model of struct `RequestGroup` in main.rs (lines 21-27).  The
`is_expanded` field carries `#[serde(skip)]`: not serialized, reset to
`Default::default()` (`false`) on deserialization. -/
structure RequestGroup where
  name : String
  requests : List ApiRequest
  is_expanded : Bool
deriving DecidableEq, Repr

/-- Default value of `ApiRequest` (`#[derive(Default)]`). -/
def ApiRequest.default : ApiRequest :=
  { name := "", url := "", method := "", headers := [], body := "", response := none }

/-! ### Persistence layer: serde serialization of the group list -/

/-- Serde serialization of one header pair `(String, String)`: a JSON
array of exactly two strings. -/
def encodePair (p : String × String) : Json :=
  Json.arr [Json.str p.1, Json.str p.2]

/-- Serde serialization of `ApiRequest`: the five non-skipped fields, in
declaration order; `response` is `#[serde(skip)]` and omitted. -/
def encodeRequest (r : ApiRequest) : Json :=
  Json.obj [
    ("name", Json.str r.name),
    ("url", Json.str r.url),
    ("method", Json.str r.method),
    ("headers", Json.arr (r.headers.map encodePair)),
    ("body", Json.str r.body)]

/-- Serde serialization of `RequestGroup`: `is_expanded` is
`#[serde(skip)]` and omitted. -/
def encodeGroup (g : RequestGroup) : Json :=
  Json.obj [
    ("name", Json.str g.name),
    ("requests", Json.arr (g.requests.map encodeRequest))]

/-- Serde serialization of `Vec<RequestGroup>`. -/
def encodeGroups (gs : List RequestGroup) : Json :=
  Json.arr (gs.map encodeGroup)

/-- Extract a JSON string. -/
def asString : Json → Option String
  | Json.str s => some s
  | _ => none

/-- Field lookup in a serde-style JSON object. -/
def jsonField (fields : List (String × Json)) (k : String) : Option Json :=
  (fields.find? (fun p => p.1 == k)).map (fun p => p.2)

/-- Serde deserialization of a JSON sequence: every element must decode,
else the whole sequence fails. -/
def decodeList (f : Json → Option α) : List Json → Option (List α)
  | [] => some []
  | x :: xs => do
      let a ← f x
      let as ← decodeList f xs
      pure (a :: as)

/-- Serde deserialization of a `(String, String)` tuple: requires a JSON
array of exactly two strings. -/
def decodePair : Json → Option (String × String)
  | Json.arr [a, b] => do
      let k ← asString a
      let v ← asString b
      pure (k, v)
  | _ => none

/-- Serde deserialization of `ApiRequest`: the five serialized fields are
required; the skipped `response` field is filled with its default,
`none`. -/
def decodeRequest : Json → Option ApiRequest
  | Json.obj fs => do
      let n ← jsonField fs "name" >>= asString
      let u ← jsonField fs "url" >>= asString
      let m ← jsonField fs "method" >>= asString
      let hsj ← jsonField fs "headers"
      let hs ← match hsj with
        | Json.arr xs => decodeList decodePair xs
        | _ => none
      let b ← jsonField fs "body" >>= asString
      pure { name := n, url := u, method := m, headers := hs, body := b,
             response := none }
  | _ => none

/-- Serde deserialization of `RequestGroup`: the skipped `is_expanded`
field is filled with its default, `false`. -/
def decodeGroup : Json → Option RequestGroup
  | Json.obj fs => do
      let n ← jsonField fs "name" >>= asString
      let rsj ← jsonField fs "requests"
      let rs ← match rsj with
        | Json.arr xs => decodeList decodeRequest xs
        | _ => none
      pure { name := n, requests := rs, is_expanded := false }
  | _ => none

/-- Serde deserialization of `Vec<RequestGroup>`. -/
def decodeGroups : Json → Option (List RequestGroup)
  | Json.arr xs => decodeList decodeGroup xs
  | _ => none

/-- State of the file `saved_groups.json`: missing (read fails), present
but not parseable as JSON text, or present with a parsed JSON value. -/
inductive FileState where
  | missing : FileState
  | invalidText : FileState
  | content (j : Json) : FileState

/-- Model of `ApiTester::load_groups` (main.rs lines 96-104): a missing
file yields `Vec::new()`; `serde_json::from_str(..).unwrap_or_default()`
yields the empty list when text-level parsing or schema decoding fails,
and the decoded groups otherwise. -/
def load_groups : FileState → List RequestGroup
  | FileState.missing => []
  | FileState.invalidText => []
  | FileState.content j => (decodeGroups j).getD []

/-- Model of `ApiTester::save_groups` (main.rs lines 106-112): the group
list is serialized (`serde_json::to_string_pretty`, which succeeds on
this schema) and written to the file. -/
def save_groups (gs : List RequestGroup) : FileState :=
  FileState.content (encodeGroups gs)

/-- Transient-field reset applied by a save/load round trip to a request:
the non-persisted `response` becomes `none`. -/
def stripRequest (r : ApiRequest) : ApiRequest :=
  { r with response := none }

/-- Transient-field reset applied by a save/load round trip to a group:
the non-persisted `is_expanded` flag becomes `false` and every request's
`response` becomes `none`. -/
def stripGroup (g : RequestGroup) : RequestGroup :=
  { g with is_expanded := false, requests := g.requests.map stripRequest }

theorem decodePair_encodePair (p : String × String) :
    decodePair (encodePair p) = some p := rfl

theorem decodeRequest_encodeRequest (r : ApiRequest) :
    decodeRequest (encodeRequest r) = some (stripRequest r) := by
  have hmap : ∀ hs : List (String × String),
      decodeList decodePair (hs.map encodePair) = some hs := by
    intro hs
    induction hs with
    | nil => rfl
    | cons h t ih =>
        simp [decodeList, decodePair_encodePair, ih]
  simp [decodeRequest, encodeRequest, jsonField, List.find?, stripRequest, hmap, asString]

theorem decodeGroup_encodeGroup (g : RequestGroup) :
    decodeGroup (encodeGroup g) = some (stripGroup g) := by
  have hmap : ∀ rs : List ApiRequest,
      decodeList decodeRequest (rs.map encodeRequest) = some (rs.map stripRequest) := by
    intro rs
    induction rs with
    | nil => rfl
    | cons h t ih =>
        simp [decodeList, decodeRequest_encodeRequest, ih]
  simp [decodeGroup, encodeGroup, jsonField, List.find?, stripGroup, hmap, asString]

theorem decodeGroups_encodeGroups (gs : List RequestGroup) :
    decodeGroups (encodeGroups gs) = some (gs.map stripGroup) := by
  induction gs with
  | nil => rfl
  | cons g t ih =>
      simp [decodeGroups, encodeGroups, decodeList, decodeGroup_encodeGroup] at ih ⊢
      simp [ih]

/-- C2: For every list of groups (arbitrary unicode names, URLs, headers
and bodies), saving to the JSON file and then loading yields the same
list of groups and requests modulo the transient fields: each request's
last response and each group's expanded flag are not persisted and come
back as their defaults (`none`, `false`). -/
theorem save_load_roundtrip (gs : List RequestGroup) :
    load_groups (save_groups gs) = gs.map stripGroup := by
  simp [load_groups, save_groups, decodeGroups_encodeGroups]

/-! ### Request executor: header construction -/

/-- Model of `http::HeaderName` byte validation used by
`HeaderName::from_bytes` (reached through `reqwest`): token characters
(lowercase letters, digits, and the RFC 7230 tchar symbols) are kept,
uppercase ASCII letters are mapped to lowercase, everything else is
invalid. -/
def headerNameChar (c : Char) : Option Char :=
  if ('a' ≤ c && c ≤ 'z') || ('0' ≤ c && c ≤ '9')
      || "!#$%&'*+-.^_`|~".toList.contains c then
    some c
  else if 'A' ≤ c && c ≤ 'Z' then
    some c.toLower
  else
    none

/-- Model of `HeaderName::from_bytes` on a UTF-8 string: fails on the
empty string and on any invalid character, otherwise yields the
lowercased name. -/
def headerNameFromString (s : String) : Option String :=
  if s.isEmpty then none
  else (s.toList.mapM headerNameChar).map fun cs => String.mk cs

/-- Model of `HeaderValue` validation (`value.parse()` in the source): a
byte is legal iff it is horizontal tab or at least 32 and not DEL; for
characters beyond ASCII every UTF-8 byte is at least 128 and legal, so
the character-level test below matches the byte-level one exactly. -/
def validHeaderValue (s : String) : Bool :=
  s.toList.all fun c => c.toNat == 9 || (32 ≤ c.toNat && c.toNat != 127)

/-- Model of `HeaderMap::insert`: replace the value of an existing entry
in place, else append the pair. -/
def headerInsert (m : List (String × String)) (k v : String) :
    List (String × String) :=
  if m.any fun p => p.1 == k then
    m.map fun p => if p.1 == k then (k, v) else p
  else
    m ++ [(k, v)]

/-- Model of the header-construction loop of `send_request` (main.rs
lines 337-352): a default `content-type: application/json` entry first,
then each user pair in order; a pair is applied only when both key and
value are non-empty, the key encodes as a header name and the value is a
legal header value. -/
def buildHeaders (userHeaders : List (String × String)) :
    List (String × String) :=
  let base := headerInsert [] "content-type" "application/json"
  userHeaders.foldl (fun m p =>
    if !p.1.isEmpty && !p.2.isEmpty then
      match headerNameFromString p.1 with
      | some n => if validHeaderValue p.2 then headerInsert m n p.2 else m
      | none => m
    else m) base

/-- Modelled from the spec: the encodable user header pairs.  A pair
survives iff key and value are non-empty, the key is a valid header name
(taken in lowercased form) and the value is a legal header value. -/
def encodeHeaderPair (p : String × String) : Option (String × String) :=
  if p.1.isEmpty || p.2.isEmpty then none
  else match headerNameFromString p.1 with
    | some n => if validHeaderValue p.2 then some (n, p.2) else none
    | none => none

/-- Modelled from the spec: start from the default
`content-type: application/json` map and apply exactly the surviving
user pairs, in their original order; excluded pairs do not abort the
processing of the remaining ones. -/
def buildHeadersSpec (userHeaders : List (String × String)) :
    List (String × String) :=
  (userHeaders.filterMap encodeHeaderPair).foldl
    (fun m p => headerInsert m p.1 p.2)
    [("content-type", "application/json")]

theorem foldl_skip_filterMap {α β γ : Type} (f : α → Option β) (g : γ → β → γ) :
    ∀ (xs : List α) (init : γ),
      xs.foldl (fun m x => ((f x).map (g m)).getD m) init
        = (xs.filterMap f).foldl g init := by
  intro xs
  induction xs with
  | nil => intro init; rfl
  | cons x t ih =>
      intro init
      cases h : f x <;> simp [List.filterMap_cons, h, ih]

theorem buildHeaders_step_eq (m : List (String × String)) (p : String × String) :
    (if !p.1.isEmpty && !p.2.isEmpty then
      match headerNameFromString p.1 with
      | some n => if validHeaderValue p.2 then headerInsert m n p.2 else m
      | none => m
    else m)
      = ((encodeHeaderPair p).map (fun q => headerInsert m q.1 q.2)).getD m := by
  unfold encodeHeaderPair
  cases h1 : p.1.isEmpty <;> cases h2 : p.2.isEmpty <;> simp [h1, h2]
  cases h3 : headerNameFromString p.1 <;> simp [h3]
  cases h4 : validHeaderValue p.2 <;> simp [h4]

/-- C4: when building the outgoing request, the default
`content-type: application/json` header is set first and then exactly
the user header pairs with non-empty key, non-empty value, encodable
name and encodable value are applied in order; an excluded pair does not
abort the processing of the remaining pairs.  Formally the source loop
equals the filter-then-apply description of the spec, and on an empty
user list only the default header remains. -/
theorem buildHeaders_eq_spec (userHeaders : List (String × String)) :
    buildHeaders userHeaders = buildHeadersSpec userHeaders ∧
    buildHeaders [] = [("content-type", "application/json")] := by
  constructor
  · unfold buildHeaders buildHeadersSpec
    have hfun : (fun (m : List (String × String)) (p : String × String) =>
        if !p.1.isEmpty && !p.2.isEmpty then
          match headerNameFromString p.1 with
          | some n => if validHeaderValue p.2 then headerInsert m n p.2 else m
          | none => m
        else m)
        = (fun m p => ((encodeHeaderPair p).map (fun q => headerInsert m q.1 q.2)).getD m) := by
      funext m p
      exact buildHeaders_step_eq m p
    rw [hfun]
    exact foldl_skip_filterMap encodeHeaderPair
      (fun m p => headerInsert m p.1 p.2) userHeaders
      (headerInsert [] "content-type" "application/json")
  · rfl

/-! ### Request executor: method dispatch, body policy, transport errors -/

/-- The transport methods of `reqwest::Method` that the executor can
select. -/
inductive Method where
  | GET : Method
  | POST : Method
  | PUT : Method
  | DELETE : Method
  | PATCH : Method
deriving DecidableEq, Repr

/-- Model of the method match in `send_request` (main.rs lines 317-332):
the five supported tokens map to the matching transport method, any
other string is rejected. -/
def methodOfString : String → Option Method
  | "GET" => some Method.GET
  | "POST" => some Method.POST
  | "PUT" => some Method.PUT
  | "DELETE" => some Method.DELETE
  | "PATCH" => some Method.PATCH
  | _ => none

/-- Payload attached to the outgoing request (main.rs lines 354-363):
nothing when the body text is empty, a JSON value when it parses, the
raw text otherwise. -/
inductive BodyPayload where
  | noBody : BodyPayload
  | json (v : Json) : BodyPayload
  | raw (s : String) : BodyPayload

/-- Model of the body-handling block of `send_request` (main.rs lines
354-363), parameterized by the external text-level JSON parser
(`serde_json::from_str`). -/
def buildPayload (parse : String → Option Json) (body : String) : BodyPayload :=
  if body.isEmpty then BodyPayload.noBody
  else match parse body with
    | some v => BodyPayload.json v
    | none => BodyPayload.raw body

/-- The fully built outgoing HTTP request handed to the transport. -/
structure OutgoingRequest where
  method : Method
  url : String
  headers : List (String × String)
  payload : BodyPayload

/-- Outcome of the transport call `request.send().await` (with the
response body text already read; a text-decoding failure is folded into
the transport as an empty body, matching `unwrap_or_default`). -/
inductive TransportResult where
  | ok (status : Nat) (headers : List (String × String)) (body : String) : TransportResult
  | err (msg : String) : TransportResult

/-- The outgoing request that `send_request` builds for a supported
method: the executor's URL, constructed headers, and body payload. -/
def mkOutgoing (parse : String → Option Json) (m : Method) (req : ApiRequest) :
    OutgoingRequest :=
  { method := m, url := req.url, headers := buildHeaders req.headers,
    payload := buildPayload parse req.body }

/-- The local synthetic response produced for an unsupported method
string (main.rs lines 323-331). -/
def invalidMethodResponse (m : String) : ApiResponse :=
  { status := 0, headers := [],
    body := "Error: Invalid HTTP method '" ++ m ++ "'", time_taken := 0 }

/-- Conversion of the transport outcome into the delivered
`ApiResponse` (main.rs lines 365-387): a successful exchange keeps
status, headers and body; a transport failure becomes a synthetic
status-0 response with empty headers, an error-description body, and the
duration of the attempt. -/
def deliver : TransportResult × Nat → ApiResponse
  | (TransportResult.ok st hs b, t) =>
      { status := st, headers := hs, body := b, time_taken := t }
  | (TransportResult.err e, t) =>
      { status := 0, headers := [], body := "Error: " ++ e, time_taken := t }

/-- Model of the spawned task of `send_request` (main.rs lines 315-388),
parameterized by the JSON parser and by the network transport `net`,
which maps the outgoing request to its outcome and the elapsed duration
of the attempt. -/
def executeRequest (parse : String → Option Json)
    (net : OutgoingRequest → TransportResult × Nat) (req : ApiRequest) :
    ApiResponse :=
  match methodOfString req.method with
  | none => invalidMethodResponse req.method
  | some m => deliver (net (mkOutgoing parse m req))

theorem methodOfString_mem_of_some (s : String) (m : Method)
    (h : methodOfString s = some m) :
    s ∈ ["GET", "POST", "PUT", "DELETE", "PATCH"] := by
  unfold methodOfString at h
  split at h <;> simp_all

/-- C1: the executor maps each of the five supported method strings to
the matching transport method and hands the built request to the
network; for any other method string it returns, independently of the
network, the local synthetic response with status 0 and a body
describing the invalid method. -/
theorem executor_method_dispatch (parse : String → Option Json)
    (req : ApiRequest) :
    (methodOfString "GET" = some Method.GET ∧
     methodOfString "POST" = some Method.POST ∧
     methodOfString "PUT" = some Method.PUT ∧
     methodOfString "DELETE" = some Method.DELETE ∧
     methodOfString "PATCH" = some Method.PATCH) ∧
    (∀ s, s ∉ ["GET", "POST", "PUT", "DELETE", "PATCH"] →
      methodOfString s = none) ∧
    (∀ m, methodOfString req.method = some m →
      ∀ net, executeRequest parse net req = deliver (net (mkOutgoing parse m req))) ∧
    (methodOfString req.method = none →
      ∀ net, executeRequest parse net req = invalidMethodResponse req.method ∧
        (executeRequest parse net req).status = 0 ∧
        (executeRequest parse net req).body =
          "Error: Invalid HTTP method '" ++ req.method ++ "'") := by
  refine ⟨⟨rfl, rfl, rfl, rfl, rfl⟩, ?_, ?_, ?_⟩
  · intro s hs
    cases h : methodOfString s with
    | none => rfl
    | some m => exact absurd (methodOfString_mem_of_some s m h) hs
  · intro m hm net
    unfold executeRequest
    rw [hm]
  · intro hnone net
    unfold executeRequest
    rw [hnone]
    exact ⟨rfl, rfl, rfl⟩

theorem executor_method_dispatch_witness :
    executeRequest (fun _ => none)
        (fun _ => (TransportResult.ok 200 [] "", 1))
        { ApiRequest.default with method := "FOO" }
      = invalidMethodResponse "FOO" :=
  ((executor_method_dispatch (fun _ => none)
      { ApiRequest.default with method := "FOO" }).2.2.2 rfl
    (fun _ => (TransportResult.ok 200 [] "", 1))).1

/-- C5 counterexample: at the empty body text (which fails JSON parsing,
as `serde_json::from_str` does on empty input) the executor attaches no
payload at all rather than a raw-text body, so the unrestricted claim
fails at this input. -/
theorem buildPayload_empty_cex :
    buildPayload (fun _ => none) "" = BodyPayload.noBody ∧
    (fun _ => (none : Option Json)) "" = none ∧
    BodyPayload.noBody ≠ BodyPayload.raw "" :=
  ⟨rfl, rfl, fun h => BodyPayload.noConfusion h⟩

/-- C5 amended: an empty body text attaches no payload; for every
non-empty body text, if the text parses as JSON the outgoing request
carries the parsed value as a JSON-typed payload, and otherwise the text
is sent as a raw-text body — the parse failure is not an error. -/
theorem buildPayload_policy (parse : String → Option Json) (text : String) :
    buildPayload parse "" = BodyPayload.noBody ∧
    (text ≠ "" →
      (∀ v, parse text = some v →
        buildPayload parse text = BodyPayload.json v) ∧
      (parse text = none → buildPayload parse text = BodyPayload.raw text)) := by
  refine ⟨rfl, fun hne => ⟨?_, ?_⟩⟩
  · intro v hv
    unfold buildPayload
    rw [hv]
    simp [String.isEmpty_iff, hne]
  · intro hv
    unfold buildPayload
    rw [hv]
    simp [String.isEmpty_iff, hne]

theorem buildPayload_policy_witness :
    buildPayload (fun _ => none) "ab" = BodyPayload.raw "ab" :=
  ((buildPayload_policy (fun _ => none) "ab").2 (by decide)).2 rfl

/-- C6: on every transport-level failure the executor delivers a
synthetic response with status 0, an empty header map, a body describing
the error, and the duration of the attempt as elapsed time. -/
theorem transport_error_response (parse : String → Option Json)
    (net : OutgoingRequest → TransportResult × Nat) (req : ApiRequest)
    (m : Method) (e : String) (t : Nat)
    (hm : methodOfString req.method = some m)
    (hn : net (mkOutgoing parse m req) = (TransportResult.err e, t)) :
    executeRequest parse net req =
      { status := 0, headers := [], body := "Error: " ++ e, time_taken := t } := by
  unfold executeRequest
  rw [hm]
  show deliver (net (mkOutgoing parse m req)) = _
  rw [hn]
  rfl

theorem transport_error_response_witness :
    executeRequest (fun _ => none)
        (fun _ => (TransportResult.err "connection refused", 7))
        { ApiRequest.default with method := "GET" }
      = { status := 0, headers := [],
          body := "Error: " ++ "connection refused", time_taken := 7 } :=
  transport_error_response (fun _ => none)
    (fun _ => (TransportResult.err "connection refused", 7))
    { ApiRequest.default with method := "GET" }
    Method.GET "connection refused" 7 rfl rfl

/-- C3: loading returns the empty group list both when the JSON file is
missing and when its contents fail to parse (at text level, or at schema
level with `decodeGroups` returning `none`), without raising an error;
loading from a missing file twice yields the empty list both times. -/
theorem load_groups_degrades :
    load_groups FileState.missing = [] ∧
    load_groups FileState.invalidText = [] ∧
    (∀ j, decodeGroups j = none → load_groups (FileState.content j) = []) ∧
    (load_groups FileState.missing, load_groups FileState.missing) = ([], []) := by
  refine ⟨rfl, rfl, fun j h => ?_, rfl⟩
  simp [load_groups, h]

theorem load_groups_degrades_witness :
    load_groups (FileState.content (Json.num 0)) = [] :=
  load_groups_degrades.2.2.1 (Json.num 0) rfl

/-! ### GUI shell state: request selection, editing, save triggers, dialogs -/

/-- The GUI-owned state of `ApiTester` that the verified transitions
touch: the group list, the current-editing slot `current_request`, the
two creation dialogs, the persisted file, and a counter of
`save_groups` calls (so that "nothing was written" is observable). -/
structure AppState where
  groups : List RequestGroup
  current_request : ApiRequest
  dialogGroupIndex : Option Nat
  newRequestShow : Bool
  newRequestName : String
  newGroupShow : Bool
  newGroupName : String
  disk : FileState
  writes : Nat

/-- Model of the `RequestAction::Select` handling in
`render_requests_panel` (main.rs lines 222-225): the clicked request is
cloned by value into `current_request` and the group index is recorded
in the dialog state.  The GUI produces this action only for indices of
an existing request, so out-of-range indices leave the state unchanged. -/
def selectRequest (s : AppState) (g r : Nat) : AppState :=
  match (s.groups[g]?).bind fun grp => grp.requests[r]? with
  | some req => { s with current_request := req, dialogGroupIndex := some g }
  | none => s

/-- Model of typing into the editor widgets (URL field, header editor,
body editor, method selector): they mutate only the by-value
`current_request` slot. -/
def editCurrent (s : AppState) (f : ApiRequest → ApiRequest) : AppState :=
  { s with current_request := f s.current_request }

/-- Model of the update loop inside the save trigger (main.rs lines
264-270): walk the stored requests of the selected group, overwrite the
first one whose name equals the editing slot's name with a clone of the
editing slot, and stop; report whether a match was found. -/
def updateFirst (cur : ApiRequest) : List ApiRequest → List ApiRequest × Bool
  | [] => ([], false)
  | r :: rs =>
      if r.name == cur.name then (cur :: rs, true)
      else
        let res := updateFirst cur rs
        (r :: res.1, res.2)

/-- Index of the first stored request whose name equals the given one
(the entry the save trigger re-finds). -/
def firstMatchIdx (name : String) : List ApiRequest → Option Nat
  | [] => none
  | r :: rs =>
      if r.name == name then some 0
      else (firstMatchIdx name rs).map fun i => i + 1

/-- Model of the explicit save trigger of `render_main_panel` (main.rs
lines 259-289): both the keyboard shortcut branch and the
URL-field-changed branch run the same block — if a group index is
recorded and in range, overwrite the first stored request of that group
whose name matches the editing slot's name and persist the groups;
otherwise do nothing. -/
def saveTrigger (s : AppState) : AppState :=
  match s.dialogGroupIndex with
  | none => s
  | some g =>
      match s.groups[g]? with
      | none => s
      | some grp =>
          let res := updateFirst s.current_request grp.requests
          if res.2 then
            let groups2 := s.groups.set g { grp with requests := res.1 }
            { s with
              groups := groups2
              disk := save_groups groups2
              writes := s.writes + 1 }
          else s

/-- Model of the Create button of the New Group dialog (main.rs lines
401-410): with the dialog shown and a non-empty name, append a new
expanded empty group, persist, clear the name and hide the dialog. -/
def clickCreateGroup (s : AppState) : AppState :=
  if s.newGroupShow && !s.newGroupName.isEmpty then
    let groups2 := s.groups ++
      [{ name := s.newGroupName, requests := [], is_expanded := true }]
    { s with
      groups := groups2
      disk := save_groups groups2
      writes := s.writes + 1
      newGroupName := ""
      newGroupShow := false }
  else s

/-- Model of the Cancel button of the New Group dialog (main.rs lines
411-414): clear the entered name and hide the dialog. -/
def clickCancelGroup (s : AppState) : AppState :=
  if s.newGroupShow then { s with newGroupName := "", newGroupShow := false }
  else s

/-- Model of the Create button of the New API Request dialog (main.rs
lines 429-439): with the dialog shown and a non-empty name, append a
clone of the editing slot under the entered name to the recorded group
and persist, then clear the dialog state; `none` models the panic of
the unchecked `self.groups[group_idx]` index when the recorded group no
longer exists. -/
def clickCreateRequest (s : AppState) : Option AppState :=
  if s.newRequestShow && !s.newRequestName.isEmpty then
    match s.dialogGroupIndex with
    | some g =>
        match s.groups[g]? with
        | some grp =>
            let newReq := { s.current_request with name := s.newRequestName }
            let groups2 := s.groups.set g
              { grp with requests := grp.requests ++ [newReq] }
            some { s with
              groups := groups2
              disk := save_groups groups2
              writes := s.writes + 1
              newRequestName := ""
              dialogGroupIndex := none
              newRequestShow := false }
        | none => none
    | none =>
        some { s with
          newRequestName := ""
          dialogGroupIndex := none
          newRequestShow := false }
  else some s

/-- Model of the Cancel button of the New API Request dialog (main.rs
lines 440-444): clear the entered name and group index and hide the
dialog. -/
def clickCancelRequest (s : AppState) : AppState :=
  if s.newRequestShow then
    { s with
      newRequestName := ""
      dialogGroupIndex := none
      newRequestShow := false }
  else s

theorem updateFirst_of_firstMatchIdx_some (cur : ApiRequest) :
    ∀ (rs : List ApiRequest) (i : Nat),
      firstMatchIdx cur.name rs = some i →
      updateFirst cur rs = (rs.set i cur, true) := by
  intro rs
  induction rs with
  | nil => intro i h; simp [firstMatchIdx] at h
  | cons r t ih =>
      intro i h
      by_cases hname : (r.name == cur.name) = true
      · simp [firstMatchIdx, hname] at h
        subst h
        simp [updateFirst, hname]
      · simp [firstMatchIdx, hname] at h
        obtain ⟨i2, hi2, hplus⟩ := h
        subst hplus
        simp [updateFirst, hname, ih i2 hi2]
  
theorem updateFirst_of_firstMatchIdx_none (cur : ApiRequest) :
    ∀ rs : List ApiRequest,
      firstMatchIdx cur.name rs = none →
      updateFirst cur rs = (rs, false) := by
  intro rs
  induction rs with
  | nil => intro h; rfl
  | cons r t ih =>
      intro h
      by_cases hname : (r.name == cur.name) = true
      · simp [firstMatchIdx, hname] at h
      · simp [firstMatchIdx, hname] at h
        simp [updateFirst, hname, ih h]

/-- C7: selecting a saved request copies it by value into the
current-editing slot (and records the group index), edits to the editing
slot leave the stored groups, the disk and the write count untouched,
and the explicit save trigger (keyboard shortcut or URL-field change)
re-finds the stored entry of the recorded group by name, overwrites it
with the editing slot, and persists the groups. -/
theorem select_edit_save_discipline (s : AppState) :
    (∀ g r grp req, s.groups[g]? = some grp →
      grp.requests[r]? = some req →
      (selectRequest s g r).current_request = req ∧
      (selectRequest s g r).groups = s.groups ∧
      (selectRequest s g r).dialogGroupIndex = some g) ∧
    (∀ f, (editCurrent s f).groups = s.groups ∧
      (editCurrent s f).disk = s.disk ∧
      (editCurrent s f).writes = s.writes) ∧
    (∀ g grp i, s.dialogGroupIndex = some g → s.groups[g]? = some grp →
      firstMatchIdx s.current_request.name grp.requests = some i →
      (saveTrigger s).groups =
        s.groups.set g
          { grp with requests := grp.requests.set i s.current_request } ∧
      (saveTrigger s).disk = save_groups ((saveTrigger s).groups) ∧
      (saveTrigger s).writes = s.writes + 1) := by
  refine ⟨?_, ?_, ?_⟩
  · intro g r grp req hg hr
    simp [selectRequest, hg, hr]
  · intro f
    exact ⟨rfl, rfl, rfl⟩
  · intro g grp i hidx hg hmatch
    have hupd :=
      updateFirst_of_firstMatchIdx_some s.current_request grp.requests i hmatch
    simp [saveTrigger, hidx, hg, hupd]

/-- Demo request used in the concrete witnesses. -/
def demoRequest : ApiRequest := { ApiRequest.default with name := "ping" }

/-- Demo group used in the concrete witnesses. -/
def demoGroup : RequestGroup :=
  { name := "Demo", requests := [demoRequest], is_expanded := true }

/-- Demo application state used in the concrete witnesses. -/
def demoState : AppState :=
  { groups := [demoGroup]
    current_request := ApiRequest.default
    dialogGroupIndex := none
    newRequestShow := false
    newRequestName := ""
    newGroupShow := false
    newGroupName := ""
    disk := FileState.missing
    writes := 0 }

theorem select_edit_save_discipline_witness :
    (selectRequest demoState 0 0).current_request = demoRequest ∧
    (selectRequest demoState 0 0).groups = demoState.groups :=
  ⟨((select_edit_save_discipline demoState).1 0 0 demoGroup demoRequest
      rfl rfl).1,
   ((select_edit_save_discipline demoState).1 0 0 demoGroup demoRequest
      rfl rfl).2.1⟩

/-- C10: with a valid recorded group index, the save trigger overwrites
only the first stored request of that group whose name equals the
editing slot's name — every other request of the group and every other
group keep their values — and when no stored request of the group
matches, the whole state (group list, disk, write counter) is left
unchanged. -/
theorem saveTrigger_frame (s : AppState) (g : Nat) (grp : RequestGroup)
    (hidx : s.dialogGroupIndex = some g)
    (hg : s.groups[g]? = some grp) :
    (∀ i, firstMatchIdx s.current_request.name grp.requests = some i →
      (saveTrigger s).groups =
        s.groups.set g
          { grp with requests := grp.requests.set i s.current_request } ∧
      (∀ g2, g2 ≠ g → (saveTrigger s).groups[g2]? = s.groups[g2]?) ∧
      (∀ j, j ≠ i →
        (grp.requests.set i s.current_request)[j]? = grp.requests[j]?)) ∧
    (firstMatchIdx s.current_request.name grp.requests = none →
      saveTrigger s = s) := by
  constructor
  · intro i hmatch
    have hupd :=
      updateFirst_of_firstMatchIdx_some s.current_request grp.requests i hmatch
    refine ⟨by simp [saveTrigger, hidx, hg, hupd], ?_, ?_⟩
    · intro g2 hne
      simp [saveTrigger, hidx, hg, hupd]
      exact List.getElem?_set_ne (Ne.symm hne)
    · intro j hne
      exact List.getElem?_set_ne (Ne.symm hne)
  · intro hmatch
    have hupd :=
      updateFirst_of_firstMatchIdx_none s.current_request grp.requests hmatch
    simp [saveTrigger, hidx, hg, hupd]

/-- Demo state whose editing slot matches the stored request by name,
with the group index recorded. -/
def demoEditState : AppState :=
  { demoState with
    dialogGroupIndex := some 0
    current_request := { demoRequest with url := "https://example.com" } }

theorem saveTrigger_frame_witness :
    (saveTrigger demoEditState).groups =
      [demoGroup].set 0
        { demoGroup with
          requests := [demoRequest].set 0 demoEditState.current_request } :=
  ((saveTrigger_frame demoEditState 0 demoGroup rfl rfl).1 0 rfl).1

/-- C8: each creation dialog is a two-state machine: Create with a
non-empty name hides the dialog and commits the new entity (a new group,
or a new request appended to the recorded group) with a persist; Create
with an empty name commits nothing; Cancel hides the dialog and discards
the entered input. -/
theorem dialog_state_machine (s : AppState) :
    (s.newGroupShow = true → s.newGroupName ≠ "" →
      (clickCreateGroup s).newGroupShow = false ∧
      (clickCreateGroup s).groups = s.groups ++
        [{ name := s.newGroupName, requests := [], is_expanded := true }] ∧
      (clickCreateGroup s).disk = save_groups ((clickCreateGroup s).groups) ∧
      (clickCreateGroup s).newGroupName = "") ∧
    (s.newGroupName = "" → clickCreateGroup s = s) ∧
    (s.newGroupShow = true → clickCancelGroup s =
      { s with newGroupName := "", newGroupShow := false }) ∧
    (∀ g grp, s.newRequestShow = true → s.newRequestName ≠ "" →
      s.dialogGroupIndex = some g → s.groups[g]? = some grp →
      ∃ s2, clickCreateRequest s = some s2 ∧
        s2.newRequestShow = false ∧
        s2.newRequestName = "" ∧
        s2.groups = s.groups.set g
          { grp with requests := grp.requests ++
              [{ s.current_request with name := s.newRequestName }] } ∧
        s2.disk = save_groups s2.groups) ∧
    (s.newRequestName = "" → clickCreateRequest s = some s) ∧
    (s.newRequestShow = true → clickCancelRequest s =
      { s with newRequestName := "", dialogGroupIndex := none,
               newRequestShow := false }) := by
  refine ⟨?_, ?_, ?_, ?_, ?_, ?_⟩
  · intro hshow hname
    have hb : s.newGroupName.isEmpty = false := by
      cases h : s.newGroupName.isEmpty with
      | false => rfl
      | true => exact absurd ((String.isEmpty_iff _).mp h) hname
    simp [clickCreateGroup, hshow, hb]
  · intro hname
    simp [clickCreateGroup, hname, String.isEmpty]
  · intro hshow
    simp [clickCancelGroup, hshow]
  · intro g grp hshow hname hidx hg
    have hb : s.newRequestName.isEmpty = false := by
      cases h : s.newRequestName.isEmpty with
      | false => rfl
      | true => exact absurd ((String.isEmpty_iff _).mp h) hname
    refine ⟨{ s with
      groups := s.groups.set g
        { grp with requests := grp.requests ++
            [{ s.current_request with name := s.newRequestName }] }
      disk := save_groups (s.groups.set g
        { grp with requests := grp.requests ++
            [{ s.current_request with name := s.newRequestName }] })
      writes := s.writes + 1
      newRequestName := ""
      dialogGroupIndex := none
      newRequestShow := false }, ?_, rfl, rfl, rfl, rfl⟩
    simp [clickCreateRequest, hshow, hb, hidx, hg]
  · intro hname
    simp [clickCreateRequest, hname, String.isEmpty]
  · intro hshow
    simp [clickCancelRequest, hshow]

/-! ### Async bridge: at most one outstanding request -/

/-- The executor-bridge fields of `ApiTester` together with the spawned
task and the completion channel: the `is_loading` flag, the number of
spawned network tasks that have not yet delivered their response, the
queue of delivered-but-undrained responses, a count of sends actually
issued, and the response last drained into the editing slot. -/
structure ExecState where
  is_loading : Bool
  inFlight : Nat
  channel : List ApiResponse
  sendsIssued : Nat
  lastResponse : Option ApiResponse

/-- The events that touch the bridge: a click on Send (main.rs lines
291-293), completion of the spawned task which sends exactly one
response on the channel (lines 315-388), and the non-blocking
`try_recv` poll at the top of the redraw loop (lines 453-456). -/
inductive UiEvent where
  | sendClick : UiEvent
  | taskComplete (r : ApiResponse) : UiEvent
  | framePoll : UiEvent

/-- Transition function of the bridge.  `sendClick` issues a request
and sets the flag only when `is_loading` is clear (the guard
`ui.button("Send").clicked() && !self.is_loading`); `taskComplete`
moves one in-flight task's response onto the channel; `framePoll`
drains at most one response and clears the flag exactly when it drains
one. -/
def execStep (s : ExecState) : UiEvent → ExecState
  | UiEvent.sendClick =>
      if s.is_loading then s
      else { s with
        is_loading := true
        inFlight := s.inFlight + 1
        sendsIssued := s.sendsIssued + 1 }
  | UiEvent.taskComplete r =>
      if s.inFlight = 0 then s
      else { s with inFlight := s.inFlight - 1, channel := s.channel ++ [r] }
  | UiEvent.framePoll =>
      match s.channel with
      | [] => s
      | r :: rest =>
          { s with channel := rest, is_loading := false, lastResponse := some r }

/-- Initial bridge state of `ApiTester::default`: not loading, nothing
in flight, empty channel. -/
def initExec : ExecState :=
  { is_loading := false, inFlight := 0, channel := [], sendsIssued := 0,
    lastResponse := none }

/-- Bridge state after a sequence of events. -/
def runExec (es : List UiEvent) : ExecState :=
  es.foldl execStep initExec

/-- Invariant of the bridge: at most one request is outstanding (in
flight or sitting undrained in the channel), and none is outstanding
while the flag is clear. -/
def ExecInv (s : ExecState) : Prop :=
  s.inFlight + s.channel.length ≤ 1 ∧
  (s.is_loading = false → s.inFlight + s.channel.length = 0)

theorem execStep_preserves_inv (s : ExecState) (e : UiEvent)
    (h : ExecInv s) : ExecInv (execStep s e) := by
  obtain ⟨h1, h2⟩ := h
  cases e with
  | sendClick =>
      cases hl : s.is_loading with
      | true =>
          have hstep : execStep s UiEvent.sendClick = s := by
            simp [execStep, hl]
          rw [hstep]
          exact ⟨h1, h2⟩
      | false =>
          have h0 := h2 hl
          have hstep : execStep s UiEvent.sendClick =
              { s with
                is_loading := true
                inFlight := s.inFlight + 1
                sendsIssued := s.sendsIssued + 1 } := by
            simp [execStep, hl]
          rw [hstep]
          refine ⟨?_, ?_⟩
          · show s.inFlight + 1 + s.channel.length ≤ 1
            omega
          · intro hf
            exact Bool.noConfusion hf
  | taskComplete r =>
      cases h0 : s.inFlight with
      | zero =>
          have hstep : execStep s (UiEvent.taskComplete r) = s := by
            simp [execStep, h0]
          rw [hstep]
          exact ⟨h1, h2⟩
      | succ n =>
          have hstep : execStep s (UiEvent.taskComplete r) =
              { s with
                inFlight := s.inFlight - 1
                channel := s.channel ++ [r] } := by
            simp [execStep, h0]
          rw [hstep]
          have hlen : (s.channel ++ [r]).length = s.channel.length + 1 := by
            simp
          refine ⟨?_, ?_⟩
          · show s.inFlight - 1 + (s.channel ++ [r]).length ≤ 1
            rw [hlen]
            omega
          · intro hf
            exact absurd (h2 hf) (by omega)
  | framePoll =>
      cases hc : s.channel with
      | nil =>
          have hstep : execStep s UiEvent.framePoll = s := by
            simp [execStep, hc]
          rw [hstep]
          exact ⟨h1, h2⟩
      | cons r rest =>
          have hstep : execStep s UiEvent.framePoll =
              { s with
                channel := rest
                is_loading := false
                lastResponse := some r } := by
            simp [execStep, hc]
          rw [hstep]
          have hlen : s.channel.length = rest.length + 1 := by
            rw [hc]
            rfl
          refine ⟨?_, ?_⟩
          · show s.inFlight + rest.length ≤ 1
            omega
          · intro _
            show s.inFlight + rest.length = 0
            omega

theorem runExec_inv (es : List UiEvent) : ExecInv (runExec es) := by
  suffices haux : ∀ (l : List UiEvent) (s : ExecState), ExecInv s →
      ExecInv (l.foldl execStep s) by
    refine haux es initExec ⟨?_, fun _ => ?_⟩
    · show (0 : Nat) + 0 ≤ 1
      omega
    · show (0 : Nat) + 0 = 0
      omega
  intro l
  induction l with
  | nil => intro s hs; exact hs
  | cons e t ih =>
      intro s hs
      exact ih (execStep s e) (execStep_preserves_inv s e hs)

/-- C9: at most one outstanding request at a time.  Clicking Send while
the flag is set leaves the state unchanged (no new request issued); a
send from an idle state issues one request and sets the flag; the flag
is cleared only by a frame poll that drains a response from the
channel; in every reachable state at most one request is outstanding
and the channel holds at most one undrained response, so a second send
is never started before the first response is received: whenever a
request is outstanding, a Send click is a no-op. -/
theorem single_outstanding_request (es : List UiEvent) :
    (∀ s : ExecState, s.is_loading = true →
      execStep s UiEvent.sendClick = s) ∧
    (∀ s : ExecState, s.is_loading = false →
      (execStep s UiEvent.sendClick).is_loading = true ∧
      (execStep s UiEvent.sendClick).sendsIssued = s.sendsIssued + 1) ∧
    (∀ (s : ExecState) (e : UiEvent), (execStep s e).is_loading = false →
      s.is_loading = false ∨ (e = UiEvent.framePoll ∧ s.channel ≠ [])) ∧
    (runExec es).inFlight + (runExec es).channel.length ≤ 1 ∧
    (1 ≤ (runExec es).inFlight + (runExec es).channel.length →
      execStep (runExec es) UiEvent.sendClick = runExec es) := by
  refine ⟨?_, ?_, ?_, (runExec_inv es).1, ?_⟩
  · intro s hl
    simp [execStep, hl]
  · intro s hl
    simp [execStep, hl]
  · intro s e hl
    cases e with
    | sendClick =>
        cases hb : s.is_loading with
        | true =>
            simp [execStep, hb] at hl
        | false =>
            exact Or.inl rfl
    | taskComplete r =>
        by_cases h0 : s.inFlight = 0
        · simp [execStep, h0] at hl
          exact Or.inl hl
        · simp [execStep, h0] at hl
          exact Or.inl hl
    | framePoll =>
        cases hc : s.channel with
        | nil =>
            simp [execStep, hc] at hl
            exact Or.inl hl
        | cons r rest =>
            exact Or.inr ⟨rfl, by simp [hc]⟩
  · intro hout
    have hinv := runExec_inv es
    cases hl : (runExec es).is_loading with
    | true => simp [execStep, hl]
    | false => exact absurd hout (by have := hinv.2 hl; omega)

theorem single_outstanding_request_witness :
    execStep (runExec [UiEvent.sendClick]) UiEvent.sendClick =
      runExec [UiEvent.sendClick] :=
  (single_outstanding_request [UiEvent.sendClick]).2.2.2.2 (by decide)

theorem dialog_state_machine_witness :
    (clickCreateGroup
      { demoState with newGroupShow := true, newGroupName := "Demo2" }).newGroupShow
      = false :=
  ((dialog_state_machine
      { demoState with newGroupShow := true, newGroupName := "Demo2" }).1
    rfl (by decide)).1
